import Mathlib

/-!
Shallow embedding of the country-cache HTTP service (countryController.js,
db.js, index.js): data model, refresh pipeline (fetch, join/derive, upsert,
status write, top-5 read-back, summary-image step, commit/rollback), and the
query/read API (list with filter and sort, read-by-name, delete-by-name).

JavaScript numbers are modelled as exact rationals (ℚ) for rates and GDP and
as ℕ for populations; `Math.random()` is modelled as a rational parameter
`rnd` with `0 ≤ rnd < 1` supplied by the caller; JS `null`/`undefined` become
`Option`; string truthiness (empty string is falsy) is modelled explicitly.
MySQL semantics used by the code are modelled where claims depend on them:
the case-insensitive unique key on `countries.name`, `ORDER BY` null ordering
(nulls last under DESC, first under ASC), and transactions as a working copy
that is published on commit and discarded on rollback.
-/

namespace CountryService

/-- Uppercase a string character by character, as JS `String.prototype.toUpperCase`
does for ASCII codes (kernel-reducible, unlike `String.toUpper`). -/
def jsToUpper (s : String) : String := String.mk (s.data.map Char.toUpper)

/-- Lowercase a string character by character, as SQL `LOWER(...)` does for
ASCII (kernel-reducible, unlike `String.toLower`). -/
def jsToLower (s : String) : String := String.mk (s.data.map Char.toLower)

/-- Split a character list at `'_'`, mirroring JS `"s".split('_')`. -/
def splitUnder : List Char → List (List Char)
  | [] => [[]]
  | c :: rest =>
    let r := splitUnder rest
    if c = '_' then [] :: r
    else
      match r with
      | [] => [[c]]
      | h :: t => (c :: h) :: t

/-- JS `sort.split('_')` for the sort query parameter. -/
def splitOnUnderscore (s : String) : List String := (splitUnder s.data).map String.mk

/-- JS `ISO_NOW.slice(0, 19).replace('T', ' ')`: the MySQL DATETIME string the
refresh writes to both tables. -/
def dbTimestampOf (iso : String) : String :=
  String.mk ((iso.data.take 19).map (fun c => if c = 'T' then ' ' else c))

/-- JS `x || null` on an optional string: the empty string is falsy and is
coerced to null. -/
def jsStrOrNull (o : Option String) : Option String :=
  match o with
  | some s => if s = "" then none else some s
  | none => none

/-- One entry of a country descriptor's `currencies` array (only the `code`
field is read by the controller). -/
structure Currency where
  code : Option String
deriving Repr, DecidableEq

/-- A country descriptor as returned by the Rest Countries gateway; fields the
controller reads. `currencies = none` models both an absent field and a
non-array value (the code guards with `Array.isArray`). -/
structure CountryDesc where
  name : String
  capital : Option String
  region : Option String
  population : Option Nat
  flag : Option String
  currencies : Option (List Currency)
deriving Repr, DecidableEq

/-- A row of the `countries` table (db.js schema, minus the surrogate id). -/
structure CountryRow where
  name : String
  capital : Option String
  region : Option String
  population : Nat
  currency_code : Option String
  exchange_rate : Option ℚ
  estimated_gdp : Option ℚ
  flag_url : Option String
  last_refreshed_at : String
deriving Repr, DecidableEq

/-- The singleton row of the `status` table. -/
structure StatusRow where
  total_countries : Nat
  last_refreshed_at : Option String
deriving Repr, DecidableEq

/-- The persistent store: the `countries` table and the status singleton. -/
structure Store where
  countries : List CountryRow
  status : StatusRow
deriving Repr, DecidableEq

/-- `getRandomMultiplier(min, max)`: `Math.floor(Math.random() * (max - min + 1)) + min`,
with `Math.random()` modelled by the rational `rnd ∈ [0, 1)`. -/
def getRandomMultiplier (rnd : ℚ) (lo hi : ℤ) : ℤ :=
  ⌊rnd * ((hi : ℚ) - (lo : ℚ) + 1)⌋ + lo

/-- `computeEstimatedGdp(population, exchangeRate)`: null when the rate is
null or 0, 0 when the population is 0, otherwise
`population * getRandomMultiplier() / exchangeRate` (the call site uses the
default bounds 1000 and 2000). -/
def computeEstimatedGdp (rnd : ℚ) (population : Nat) (exchangeRate : Option ℚ) : Option ℚ :=
  match exchangeRate with
  | none => none
  | some r =>
    if r = 0 then none
    else if population = 0 then some 0
    else some ((population : ℚ) * ((getRandomMultiplier rnd 1000 2000 : ℤ) : ℚ) / r)

/-- `exchangeRates.hasOwnProperty(code)` followed by `exchangeRates[code]`:
exact, case-sensitive key lookup in the rate mapping. -/
def lookupRate : List (String × ℚ) → String → Option ℚ
  | [], _ => none
  | (k, v) :: rest, code => if k = code then some v else lookupRate rest code

/-- The `currency_code` derived for one descriptor: the first declared
currency's code uppercased (the missing-code fallback `|| ''` yields the empty
string), or null when `currencies` is not a non-empty array. -/
def currencyCodeOf (c : CountryDesc) : Option String :=
  match c.currencies with
  | some (cur :: _) => some (jsToUpper (cur.code.getD ""))
  | _ => none

/-- The `exchange_rate` derived for one descriptor: looked up in the rate
mapping only when `currency_code` is truthy (non-null and non-empty). -/
def exchangeRateOf (rates : List (String × ℚ)) (c : CountryDesc) : Option ℚ :=
  match currencyCodeOf c with
  | some code => if code = "" then none else lookupRate rates code
  | none => none

/-- The join/derive step of the refresh loop for one country descriptor:
first declared currency's code uppercased (empty string when the entry has no
code), rate looked up only when the code string is truthy, population
defaulted to 0, GDP computed by `computeEstimatedGdp` and forced to 0 when
`currency_code` is null. -/
def deriveRow (rnd : ℚ) (rates : List (String × ℚ)) (ts : String) (c : CountryDesc) :
    CountryRow :=
  let currency_code := currencyCodeOf c
  let exchange_rate := exchangeRateOf rates c
  let population := c.population.getD 0
  let gdp0 := computeEstimatedGdp rnd population exchange_rate
  let estimated_gdp := if currency_code = none then some 0 else gdp0
  { name := c.name
    capital := jsStrOrNull c.capital
    region := jsStrOrNull c.region
    population := population
    currency_code := currency_code
    exchange_rate := exchange_rate
    estimated_gdp := estimated_gdp
    flag_url := jsStrOrNull c.flag
    last_refreshed_at := ts }

/-- MySQL's case-insensitive collation on the unique `name` key: two names
collide iff they agree after lowercasing (also the semantics of the
`LOWER(name) = LOWER(?)` predicates in the read/delete queries). -/
def nameKeyEq (a b : String) : Bool := jsToLower a = jsToLower b

/-- One `INSERT ... ON DUPLICATE KEY UPDATE` on the `countries` table: when a
row with a colliding name exists, every listed field is overwritten but the
stored `name` is kept (the update list does not assign `name`); otherwise the
new row is appended. -/
def upsertRow (table : List CountryRow) (r : CountryRow) : List CountryRow :=
  if table.any (fun x => nameKeyEq x.name r.name) then
    table.map (fun x =>
      if nameKeyEq x.name r.name then
        { x with
          capital := r.capital
          region := r.region
          population := r.population
          currency_code := r.currency_code
          exchange_rate := r.exchange_rate
          estimated_gdp := r.estimated_gdp
          flag_url := r.flag_url
          last_refreshed_at := r.last_refreshed_at }
      else x)
  else table ++ [r]

/-- The refresh loop's upserts with no injected failure: fold the derived rows
into the table in gateway order, drawing the i-th country's multiplier from
`rands i`. -/
def upsertAll (rands : Nat → ℚ) (rates : List (String × ℚ)) (ts : String) :
    List CountryDesc → List CountryRow → Nat → List CountryRow
  | [], table, _ => table
  | c :: rest, table, i =>
    upsertAll rands rates ts rest (upsertRow table (deriveRow (rands i) rates ts c)) (i + 1)

/-- Injected failure points for the persistence phase of one refresh cycle:
whether the i-th per-country upsert query fails, whether the status `UPDATE`
fails, whether the top-5 read-back `SELECT` fails, and whether summary-image
generation fails. -/
structure DbFailures where
  upsertFails : Nat → Bool
  statusFails : Bool
  readbackFails : Bool
  imageFails : Bool

/-- Outcome of the two concurrent gateway fetches: a rejected promise, or two
responses whose bodies may be malformed (`none` models a missing/`rates`-less
exchange body resp. a non-array country body). -/
inductive FetchOutcome where
  | netError : FetchOutcome
  | ok : Option (List (String × ℚ)) → Option (List CountryDesc) → FetchOutcome

/-- The HTTP response of `POST /countries/refresh`. -/
inductive RefreshResponse where
  | errorResp : Nat → String → RefreshResponse
  | success : Nat → String → RefreshResponse
deriving Repr, DecidableEq

/-- The per-country upsert loop inside the transaction, on the transaction's
working copy of the table: `none` means the i-th query raised and the whole
transaction will be rolled back. -/
def runUpserts (rands : Nat → ℚ) (rates : List (String × ℚ)) (ts : String)
    (fails : DbFailures) :
    List CountryDesc → List CountryRow → Nat → Option (List CountryRow)
  | [], table, _ => some table
  | c :: rest, table, i =>
    if fails.upsertFails i then none
    else runUpserts rands rates ts fails rest
      (upsertRow table (deriveRow (rands i) rates ts c)) (i + 1)

/-- `refreshCountries`: fetch both sources (abort with 503 before any write on
rejection or malformed bodies), then inside one transaction upsert every
derived row, update the status singleton, read back the top 5, generate the
summary image, and only then commit; any error after `beginTransaction` rolls
the working state back and answers 500. Returns the HTTP response and the
store after the request. -/
def refreshCountries (fetch : FetchOutcome) (fails : DbFailures) (rands : Nat → ℚ)
    (isoNow : String) (s : Store) : RefreshResponse × Store :=
  match fetch with
  | .netError => (.errorResp 503 "External data source unavailable", s)
  | .ok exchangeBody countryBody =>
    match exchangeBody, countryBody with
    | some rates, some countryData =>
      let ts := dbTimestampOf isoNow
      match runUpserts rands rates ts fails countryData s.countries 0 with
      | none => (.errorResp 500 "Internal server error", s)
      | some table' =>
        if fails.statusFails then (.errorResp 500 "Internal server error", s)
        else if fails.readbackFails then (.errorResp 500 "Internal server error", s)
        else if fails.imageFails then (.errorResp 500 "Internal server error", s)
        else
          (.success countryData.length isoNow,
            { countries := table'
              status :=
                { total_countries := countryData.length, last_refreshed_at := some ts } })
    | _, _ => (.errorResp 503 "External data source unavailable", s)

/-- Insert into a list sorted by the boolean relation `le`. -/
def insertLe (le : CountryRow → CountryRow → Bool) (a : CountryRow) :
    List CountryRow → List CountryRow
  | [] => [a]
  | b :: t => if le a b then a :: b :: t else b :: insertLe le a t

/-- Sort by the boolean relation `le` (models the store's `ORDER BY`). -/
def sortLe (le : CountryRow → CountryRow → Bool) : List CountryRow → List CountryRow
  | [] => []
  | a :: t => insertLe le a (sortLe le t)

/-- Lexicographic comparison of character lists by code point. -/
def charListLe : List Char → List Char → Bool
  | [], _ => true
  | _ :: _, [] => false
  | a :: as, b :: bs =>
    if a.toNat < b.toNat then true
    else if b.toNat < a.toNat then false
    else charListLe as bs

/-- Row order of `ORDER BY name ASC` under the store's default
case-insensitive collation on the `name` column — the same collation
`nameKeyEq` assumes for the unique key: names compare lowercased, code point
by code point. -/
def nameAscLe (a b : CountryRow) : Bool :=
  charListLe (jsToLower a.name).data (jsToLower b.name).data

/-- Row order of MySQL `ORDER BY estimated_gdp DESC`: larger values first and
`NULL` sorts after every non-null value. -/
def gdpDescLe (a b : CountryRow) : Bool :=
  match a.estimated_gdp, b.estimated_gdp with
  | some x, some y => decide (y ≤ x)
  | some _, none => true
  | none, some _ => false
  | none, none => true

/-- Row order of MySQL `ORDER BY estimated_gdp ASC`: `NULL` sorts before every
non-null value. -/
def gdpAscLe (a b : CountryRow) : Bool :=
  match a.estimated_gdp, b.estimated_gdp with
  | some x, some y => decide (x ≤ y)
  | some _, none => false
  | none, some _ => true
  | none, none => true

/-- The three orderings `getCountries` can emit. -/
inductive OrderChoice where
  | nameAsc : OrderChoice
  | gdpDesc : OrderChoice
  | gdpAsc : OrderChoice
deriving Repr, DecidableEq

/-- The sorting logic of `getCountries`: default `ORDER BY name ASC`; when a
truthy `sort` parameter is present, split it at `'_'`, destructure the first
two segments as `[field, direction]`, and use `estimated_gdp` ordering exactly
when `field === 'gdp'` and the direction is `'desc'` or `'asc'`. -/
def parseSortChoice (sortQ : Option String) : OrderChoice :=
  match sortQ with
  | none => .nameAsc
  | some s =>
    if s = "" then .nameAsc
    else
      let parts := splitOnUnderscore s
      let field := parts.headD ""
      match parts.get? 1 with
      | some dir =>
        if field = "gdp" && (dir = "desc" || dir = "asc") then
          if dir = "desc" then .gdpDesc else .gdpAsc
        else .nameAsc
      | none => .nameAsc

/-- SQL `LOWER(region) = LOWER(?)`: a NULL region matches nothing. -/
def rowMatchesRegion (q : String) (r : CountryRow) : Bool :=
  match r.region with
  | some s => jsToLower s = jsToLower q
  | none => false

/-- SQL `LOWER(currency_code) = LOWER(?)`: a NULL code matches nothing. -/
def rowMatchesCurrency (q : String) (r : CountryRow) : Bool :=
  match r.currency_code with
  | some s => jsToLower s = jsToLower q
  | none => false

/-- `GET /countries`: optional case-insensitive region and currency filters
(falsy, i.e. absent or empty, parameters are ignored), then the ordering
selected by the `sort` parameter. -/
def getCountries (table : List CountryRow) (region currency sortQ : Option String) :
    List CountryRow :=
  let t1 :=
    match region with
    | some q => if q = "" then table else table.filter (rowMatchesRegion q)
    | none => table
  let t2 :=
    match currency with
    | some q => if q = "" then t1 else t1.filter (rowMatchesCurrency q)
    | none => t1
  match parseSortChoice sortQ with
  | .nameAsc => sortLe nameAscLe t2
  | .gdpDesc => sortLe gdpDescLe t2
  | .gdpAsc => sortLe gdpAscLe t2

/-- The transaction's top-5 read-back,
`SELECT name, estimated_gdp FROM countries ORDER BY estimated_gdp DESC LIMIT 5`. -/
def topCountriesQuery (table : List CountryRow) : List CountryRow :=
  (sortLe gdpDescLe table).take 5

/-- `GET /countries/:name`: first row matching `LOWER(name) = LOWER(?)`, or
404 (`none`). -/
def getCountryByName (table : List CountryRow) (name : String) : Option CountryRow :=
  (table.filter (fun r => nameKeyEq r.name name)).head?

/-- Outcome of `DELETE /countries/:name`. -/
inductive DeleteOutcome where
  | deleted : DeleteOutcome
  | notFound : DeleteOutcome
deriving Repr, DecidableEq

/-- `DELETE /countries/:name`: remove every row matching
`LOWER(name) = LOWER(?)`; answer 404 `Country not found` when
`affectedRows === 0`. Returns the outcome and the table afterwards. -/
def deleteCountry (table : List CountryRow) (name : String) :
    DeleteOutcome × List CountryRow :=
  let remaining := table.filter (fun r => !nameKeyEq r.name name)
  if remaining.length = table.length then (.notFound, table) else (.deleted, remaining)

/-- Whether the fetch phase fails: a rejected promise, a body without the
expected `rates` mapping, or a country payload that is not an array. -/
def fetchFailed : FetchOutcome → Bool
  | .netError => true
  | .ok eb cb => eb.isNone || cb.isNone

/-- The ordering property claimed for `gdp_desc` output: along the list,
null GDPs only ever appear after non-null ones, and non-null GDPs are
non-increasing. -/
def gdpDescOrder (a b : CountryRow) : Prop :=
  b.estimated_gdp = none ∨
    ∃ x y, a.estimated_gdp = some x ∧ b.estimated_gdp = some y ∧ y ≤ x

/-! ### Sample data for concrete witnesses and counterexamples -/

/-- A descriptor whose only currency code maps to the rate 0. -/
def zeroRateDesc : CountryDesc :=
  ⟨"Zeroland", none, none, some 5, none, some [⟨some "abc"⟩]⟩

/-- The row derived from `zeroRateDesc` against a rate table mapping ABC to 0. -/
def zeroRateRow : CountryRow := deriveRow 0 [("ABC", 0)] "2026-01-01 00:00:00" zeroRateDesc

/-- Sample stored row with GDP 1. -/
def sampleRowA : CountryRow := ⟨"A", none, none, 3, none, none, some 1, none, "ts"⟩

/-- Sample stored row with GDP 2. -/
def sampleRowB : CountryRow := ⟨"B", none, none, 3, none, none, some 2, none, "ts"⟩

/-- Sample stored row with null GDP. -/
def sampleRowN : CountryRow := ⟨"N", none, none, 3, none, none, none, none, "ts"⟩

/-- Failure injection where every persistence step succeeds. -/
def noFailures : DbFailures := ⟨fun _ => false, false, false, false⟩

/-- Failure injection where every per-country upsert query raises. -/
def allUpsertsFail : DbFailures := ⟨fun _ => true, false, false, false⟩

/-- Sample descriptor named France. -/
def franceDesc : CountryDesc := ⟨"France", none, none, some 5, none, none⟩

/-- Sample descriptor whose name collides with France on the case-insensitive key. -/
def franceUpperDesc : CountryDesc := ⟨"FRANCE", none, none, some 7, none, none⟩

/-- A store with no countries and the initial status row. -/
def emptyStore : Store := ⟨[], ⟨0, none⟩⟩

/-- A store holding one prior row and a prior status value. -/
def priorStore : Store := ⟨[sampleRowA], ⟨1, some "2025-12-31 00:00:00"⟩⟩

/-! ### Helper lemmas -/

theorem getRandomMultiplier_bounds (rnd : ℚ) (h0 : 0 ≤ rnd) (h1 : rnd < 1) :
    1000 ≤ getRandomMultiplier rnd 1000 2000 ∧ getRandomMultiplier rnd 1000 2000 ≤ 2000 := by
  unfold getRandomMultiplier
  have h1001 : ((2000 : ℤ) : ℚ) - ((1000 : ℤ) : ℚ) + 1 = 1001 := by norm_num
  rw [h1001]
  have hlo : (0 : ℤ) ≤ ⌊rnd * 1001⌋ := Int.floor_nonneg.mpr (by positivity)
  have hhi : ⌊rnd * 1001⌋ < 1001 := by
    rw [Int.floor_lt]
    push_cast
    nlinarith
  omega

theorem lookupRate_mem (rates : List (String × ℚ)) (code : String) (x : ℚ)
    (h : lookupRate rates code = some x) : (code, x) ∈ rates := by
  induction rates with
  | nil => simp [lookupRate] at h
  | cons p rest ih =>
    obtain ⟨k, v⟩ := p
    by_cases hk : k = code
    · subst hk
      simp only [lookupRate, eq_self_iff_true, if_true, Option.some.injEq] at h
      subst h
      exact List.mem_cons_self _ _
    · simp only [lookupRate, if_neg hk] at h
      exact List.mem_cons_of_mem _ (ih h)

theorem insertLe_perm (le : CountryRow → CountryRow → Bool) (a : CountryRow)
    (l : List CountryRow) : (insertLe le a l).Perm (a :: l) := by
  induction l with
  | nil => exact List.Perm.refl _
  | cons b t ih =>
    simp only [insertLe]
    by_cases h : le a b = true
    · rw [if_pos h]
    · rw [if_neg h]
      exact ((List.perm_cons b).mpr ih).trans (List.Perm.swap a b t)

theorem sortLe_perm (le : CountryRow → CountryRow → Bool) (l : List CountryRow) :
    (sortLe le l).Perm l := by
  induction l with
  | nil => exact List.Perm.refl _
  | cons a t ih =>
    simp only [sortLe]
    exact (insertLe_perm le a _).trans ((List.perm_cons a).mpr ih)

theorem insertLe_pairwise (le : CountryRow → CountryRow → Bool)
    (htotal : ∀ a b, le a b = true ∨ le b a = true)
    (htrans : ∀ a b c, le a b = true → le b c = true → le a c = true)
    (a : CountryRow) (l : List CountryRow)
    (hp : List.Pairwise (fun x y => le x y = true) l) :
    List.Pairwise (fun x y => le x y = true) (insertLe le a l) := by
  induction l with
  | nil => exact List.pairwise_singleton _ a
  | cons b t ih =>
    rw [List.pairwise_cons] at hp
    obtain ⟨hb, ht⟩ := hp
    simp only [insertLe]
    by_cases h : le a b = true
    · rw [if_pos h]
      refine List.pairwise_cons.mpr ⟨?_, List.pairwise_cons.mpr ⟨hb, ht⟩⟩
      intro x hx
      rcases List.mem_cons.mp hx with rfl | hx'
      · exact h
      · exact htrans a b x h (hb x hx')
    · rw [if_neg h]
      have hba : le b a = true := (htotal a b).resolve_left h
      refine List.pairwise_cons.mpr ⟨?_, ih ht⟩
      intro x hx
      rcases List.mem_cons.mp ((insertLe_perm le a t).mem_iff.mp hx) with rfl | hx'
      · exact hba
      · exact hb x hx'

theorem sortLe_pairwise (le : CountryRow → CountryRow → Bool)
    (htotal : ∀ a b, le a b = true ∨ le b a = true)
    (htrans : ∀ a b c, le a b = true → le b c = true → le a c = true)
    (l : List CountryRow) :
    List.Pairwise (fun x y => le x y = true) (sortLe le l) := by
  induction l with
  | nil => exact List.Pairwise.nil
  | cons a t ih =>
    simp only [sortLe]
    exact insertLe_pairwise le htotal htrans a _ ih

theorem gdpDescLe_total (a b : CountryRow) :
    gdpDescLe a b = true ∨ gdpDescLe b a = true := by
  unfold gdpDescLe
  rcases a.estimated_gdp with _ | x <;> rcases b.estimated_gdp with _ | y <;> simp
  exact le_total y x

theorem gdpDescLe_trans (a b c : CountryRow) :
    gdpDescLe a b = true → gdpDescLe b c = true → gdpDescLe a c = true := by
  unfold gdpDescLe
  rcases a.estimated_gdp with _ | x <;> rcases b.estimated_gdp with _ | y <;>
    rcases c.estimated_gdp with _ | z <;>
    simp only [decide_eq_true_eq] <;> intro h1 h2 <;>
    first
    | exact trivial
    | exact absurd h1 Bool.false_ne_true
    | exact absurd h2 Bool.false_ne_true
    | exact h1.elim
    | exact h2.elim
    | exact le_trans h2 h1

theorem gdpDescLe_implies_order (a b : CountryRow) (h : gdpDescLe a b = true) :
    gdpDescOrder a b := by
  unfold gdpDescLe at h
  unfold gdpDescOrder
  rcases ha : a.estimated_gdp with _ | x <;> rcases hb : b.estimated_gdp with _ | y <;>
    rw [ha, hb] at h <;> simp_all

theorem runUpserts_eq_upsertAll (rands : Nat → ℚ) (rates : List (String × ℚ)) (ts : String)
    (fails : DbFailures) :
    ∀ (cs : List CountryDesc) (table : List CountryRow) (i : Nat) (t' : List CountryRow),
      runUpserts rands rates ts fails cs table i = some t' →
      t' = upsertAll rands rates ts cs table i := by
  intro cs
  induction cs with
  | nil =>
    intro table i t' h
    simp only [runUpserts, Option.some.injEq] at h
    simp [upsertAll, h]
  | cons c rest ih =>
    intro table i t' h
    simp only [runUpserts] at h
    by_cases hf : fails.upsertFails i = true
    · rw [if_pos hf] at h
      exact absurd h (by simp)
    · rw [if_neg hf] at h
      simp only [upsertAll]
      exact ih _ _ _ h

theorem runUpserts_of_no_failures (rands : Nat → ℚ) (rates : List (String × ℚ)) (ts : String)
    (fails : DbFailures) (h : ∀ i, fails.upsertFails i = false) :
    ∀ (cs : List CountryDesc) (table : List CountryRow) (i : Nat),
      runUpserts rands rates ts fails cs table i =
        some (upsertAll rands rates ts cs table i) := by
  intro cs
  induction cs with
  | nil => intro table i; simp [runUpserts, upsertAll]
  | cons c rest ih =>
    intro table i
    simp only [runUpserts, upsertAll, h i, Bool.false_eq_true, if_false]
    exact ih _ _

theorem upsertAll_length_of_fresh (rands : Nat → ℚ) (rates : List (String × ℚ)) (ts : String) :
    ∀ (cs : List CountryDesc) (table : List CountryRow) (i : Nat),
      (∀ c ∈ cs, ∀ x ∈ table, jsToLower x.name ≠ jsToLower c.name) →
      cs.Pairwise (fun a b => jsToLower a.name ≠ jsToLower b.name) →
      (upsertAll rands rates ts cs table i).length = table.length + cs.length := by
  intro cs
  induction cs with
  | nil => intro table i _ _; simp [upsertAll]
  | cons c rest ih =>
    intro table i hfresh hpair
    rw [List.pairwise_cons] at hpair
    simp only [upsertAll]
    have hname : (deriveRow (rands i) rates ts c).name = c.name := rfl
    have hany : (table.any fun x => nameKeyEq x.name (deriveRow (rands i) rates ts c).name)
        = false := by
      rw [List.any_eq_false]
      intro x hx
      rw [hname]
      simp only [nameKeyEq, decide_eq_true_eq]
      exact hfresh c (List.mem_cons_self _ _) x hx
    rw [upsertRow, if_neg (by rw [hany]; exact Bool.false_ne_true)]
    have hfresh' : ∀ c' ∈ rest, ∀ x ∈ table ++ [deriveRow (rands i) rates ts c],
        jsToLower x.name ≠ jsToLower c'.name := by
      intro c' hc' x hx
      rcases List.mem_append.mp hx with hx' | hx'
      · exact hfresh c' (List.mem_cons_of_mem _ hc') x hx'
      · have : x = deriveRow (rands i) rates ts c := List.mem_singleton.mp hx'
        rw [this, hname]
        exact hpair.1 c' hc'
    have := ih (table ++ [deriveRow (rands i) rates ts c]) (i + 1) hfresh' hpair.2
    rw [this, List.length_append]
    simp only [List.length_cons, List.length_nil]
    omega

theorem filter_nameKeyEq_eq_single (table : List CountryRow) (row : CountryRow) (nm : String)
    (hu : table.Pairwise (fun a b => jsToLower a.name ≠ jsToLower b.name))
    (hrow : row ∈ table) (hmatch : nameKeyEq row.name nm = true) :
    table.filter (fun r => nameKeyEq r.name nm) = [row] := by
  induction table with
  | nil => cases hrow
  | cons h t ih =>
    rw [List.pairwise_cons] at hu
    rcases List.mem_cons.mp hrow with rfl | hrt
    · rw [show List.filter (fun r => nameKeyEq r.name nm) (row :: t) =
          row :: List.filter (fun r => nameKeyEq r.name nm) t from by
        simp [List.filter_cons, hmatch]]
      have hnil : t.filter (fun r => nameKeyEq r.name nm) = [] := by
        rw [List.filter_eq_nil_iff]
        intro x hx
        have hne := hu.1 x hx
        simp only [nameKeyEq, decide_eq_true_eq] at hmatch ⊢
        intro heq
        exact hne (hmatch.trans heq.symm)
      rw [hnil]
    · have hhead : nameKeyEq h.name nm = false := by
        by_contra hcon
        have htrue : nameKeyEq h.name nm = true := by
          cases hb : nameKeyEq h.name nm
          · exact absurd hb hcon
          · rfl
        simp only [nameKeyEq, decide_eq_true_eq] at htrue hmatch
        exact hu.1 row hrt (htrue.trans hmatch.symm)
      rw [show List.filter (fun r => nameKeyEq r.name nm) (h :: t) =
          List.filter (fun r => nameKeyEq r.name nm) t from by
        simp [List.filter_cons, hhead]]
      exact ih hu.2 hrt

theorem deriveRow_currency_code (rnd : ℚ) (rates : List (String × ℚ)) (ts : String)
    (c : CountryDesc) : (deriveRow rnd rates ts c).currency_code = currencyCodeOf c := rfl

theorem deriveRow_exchange_rate (rnd : ℚ) (rates : List (String × ℚ)) (ts : String)
    (c : CountryDesc) : (deriveRow rnd rates ts c).exchange_rate = exchangeRateOf rates c := rfl

theorem deriveRow_estimated_gdp (rnd : ℚ) (rates : List (String × ℚ)) (ts : String)
    (c : CountryDesc) :
    (deriveRow rnd rates ts c).estimated_gdp =
      if currencyCodeOf c = none then some 0
      else computeEstimatedGdp rnd (c.population.getD 0) (exchangeRateOf rates c) := rfl

theorem exchangeRateOf_eq_some (rates : List (String × ℚ)) (c : CountryDesc) (x : ℚ)
    (hx : exchangeRateOf rates c = some x) :
    ∃ code, currencyCodeOf c = some code ∧ code ≠ "" ∧ lookupRate rates code = some x := by
  unfold exchangeRateOf at hx
  cases hc : currencyCodeOf c with
  | none => rw [hc] at hx; exact absurd hx (by simp)
  | some code =>
    rw [hc] at hx
    have hx' : (if code = "" then none else lookupRate rates code) = some x := hx
    by_cases hce : code = ""
    · rw [if_pos hce] at hx'; exact absurd hx' (by simp)
    · rw [if_neg hce] at hx'; exact ⟨code, rfl, hce, hx'⟩

/-! ### Claim theorems -/

/-- C2: the GDP estimator returns null when the exchange rate is absent;
exactly 0 when the rate is present and positive and the population is 0;
otherwise `population * m / rate` for an integer multiplier `m` in
`[1000, 2000]`, hence a value between `population * 1000 / rate` and
`population * 2000 / rate`. (`rnd` is the `Math.random()` draw, which lies in
`[0, 1)`.) -/
theorem computeEstimatedGdp_spec (rnd : ℚ) (p : Nat) (er : Option ℚ)
    (h0 : 0 ≤ rnd) (h1 : rnd < 1) (hpos : ∀ x, er = some x → 0 < x) :
    (er = none → computeEstimatedGdp rnd p er = none) ∧
    (∀ x, er = some x → p = 0 → computeEstimatedGdp rnd p er = some 0) ∧
    (∀ x, er = some x → p ≠ 0 →
      ∃ m : ℤ, 1000 ≤ m ∧ m ≤ 2000 ∧
        computeEstimatedGdp rnd p er = some ((p : ℚ) * (m : ℚ) / x) ∧
        (p : ℚ) * 1000 / x ≤ (p : ℚ) * (m : ℚ) / x ∧
        (p : ℚ) * (m : ℚ) / x ≤ (p : ℚ) * 2000 / x) := by
  refine ⟨?_, ?_, ?_⟩
  · rintro rfl; rfl
  · rintro x rfl hp
    have hx := hpos x rfl
    simp [computeEstimatedGdp, hp, ne_of_gt hx]
  · rintro x rfl hp
    have hx := hpos x rfl
    obtain ⟨hm1, hm2⟩ := getRandomMultiplier_bounds rnd h0 h1
    refine ⟨getRandomMultiplier rnd 1000 2000, hm1, hm2, ?_, ?_, ?_⟩
    · simp [computeEstimatedGdp, hp, ne_of_gt hx]
    · gcongr
      exact_mod_cast hm1
    · gcongr
      exact_mod_cast hm2

/-- C2 witness: at `rnd = 0`, population 5 and rate 2 the estimator output is
`5 * m / 2` for some multiplier `m` in `[1000, 2000]` with the claimed
bounds. -/
theorem computeEstimatedGdp_spec_witness :
    ∃ m : ℤ, 1000 ≤ m ∧ m ≤ 2000 ∧
      computeEstimatedGdp 0 5 (some 2) = some (((5 : ℕ) : ℚ) * (m : ℚ) / 2) ∧
      ((5 : ℕ) : ℚ) * 1000 / 2 ≤ ((5 : ℕ) : ℚ) * (m : ℚ) / 2 ∧
      ((5 : ℕ) : ℚ) * (m : ℚ) / 2 ≤ ((5 : ℕ) : ℚ) * 2000 / 2 :=
  (computeEstimatedGdp_spec 0 5 (some 2) le_rfl (by norm_num)
    (fun x hx => by cases hx; norm_num)).2.2 2 rfl (by norm_num)

/-- C3 counterexample: a country whose code ABC maps to rate 0 gets
`currency_code = "ABC" ≠ null`, `exchange_rate = 0 ≠ null`, but
`estimated_gdp = null`, so the third clause of the claimed invariant
(`currency_code ≠ null ∧ exchange_rate ≠ null ⇒ estimated_gdp ≥ 0`) fails. -/
theorem deriveRow_invariant_counterexample :
    zeroRateRow.currency_code = some "ABC" ∧
    zeroRateRow.exchange_rate = some 0 ∧
    zeroRateRow.estimated_gdp = none ∧
    ¬ ∃ g : ℚ, zeroRateRow.estimated_gdp = some g ∧ 0 ≤ g := by
  refine ⟨by decide, by decide, by decide, ?_⟩
  rintro ⟨g, hg, -⟩
  rw [show zeroRateRow.estimated_gdp = none by decide] at hg
  exact Option.noConfusion hg

/-- C3 amended: over non-negative rate mappings, every derived row satisfies:
null code forces GDP 0; non-null code with null rate gives null GDP; non-null
rate that is non-zero gives a non-negative (non-null) GDP; while a rate of
exactly 0 gives null GDP (this last case is what the original claim missed). -/
theorem deriveRow_invariant (rnd : ℚ) (rates : List (String × ℚ)) (ts : String)
    (c : CountryDesc) (h0 : 0 ≤ rnd) (h1 : rnd < 1)
    (hrates : ∀ q ∈ rates, 0 ≤ q.2) :
    ((deriveRow rnd rates ts c).currency_code = none →
      (deriveRow rnd rates ts c).estimated_gdp = some 0) ∧
    ((deriveRow rnd rates ts c).currency_code ≠ none →
      (deriveRow rnd rates ts c).exchange_rate = none →
      (deriveRow rnd rates ts c).estimated_gdp = none) ∧
    (∀ x, (deriveRow rnd rates ts c).exchange_rate = some x → x ≠ 0 →
      ∃ g, (deriveRow rnd rates ts c).estimated_gdp = some g ∧ 0 ≤ g) ∧
    (∀ x, (deriveRow rnd rates ts c).exchange_rate = some x → x = 0 →
      (deriveRow rnd rates ts c).estimated_gdp = none) := by
  refine ⟨?_, ?_, ?_, ?_⟩
  · intro hcode
    rw [deriveRow_currency_code] at hcode
    rw [deriveRow_estimated_gdp, if_pos hcode]
  · intro hcode hrate
    rw [deriveRow_currency_code] at hcode
    rw [deriveRow_exchange_rate] at hrate
    rw [deriveRow_estimated_gdp, if_neg hcode, hrate]
    rfl
  · intro x hx hxne
    rw [deriveRow_exchange_rate] at hx
    obtain ⟨code, hcc, -, hlook⟩ := exchangeRateOf_eq_some rates c x hx
    have hxpos : 0 < x :=
      lt_of_le_of_ne (hrates (code, x) (lookupRate_mem rates code x hlook)) (Ne.symm hxne)
    rw [deriveRow_estimated_gdp, if_neg (by rw [hcc]; simp), hx]
    simp only [computeEstimatedGdp, if_neg hxne]
    by_cases hp : c.population.getD 0 = 0
    · rw [if_pos hp]
      exact ⟨0, rfl, le_refl 0⟩
    · rw [if_neg hp]
      refine ⟨_, rfl, ?_⟩
      have hm1 := (getRandomMultiplier_bounds rnd h0 h1).1
      have hm0 : (0 : ℚ) ≤ ((getRandomMultiplier rnd 1000 2000 : ℤ) : ℚ) := by
        have hz : (0 : ℤ) ≤ getRandomMultiplier rnd 1000 2000 := by omega
        exact_mod_cast hz
      exact div_nonneg (mul_nonneg (Nat.cast_nonneg _) hm0) (le_of_lt hxpos)
  · intro x hx hx0
    rw [deriveRow_exchange_rate] at hx
    obtain ⟨code, hcc, -, -⟩ := exchangeRateOf_eq_some rates c x hx
    rw [deriveRow_estimated_gdp, if_neg (by rw [hcc]; simp), hx, hx0]
    simp [computeEstimatedGdp]

/-- C3 amended witness: against the rate mapping `{ABC: 2}`, the row for a
country using currency abc has a non-negative non-null GDP. -/
theorem deriveRow_invariant_witness :
    ∃ g, (deriveRow 0 [("ABC", 2)] "ts"
        ⟨"Testland", none, none, some 1000000, none, some [⟨some "abc"⟩]⟩).estimated_gdp
      = some g ∧ 0 ≤ g :=
  (deriveRow_invariant 0 [("ABC", 2)] "ts"
      ⟨"Testland", none, none, some 1000000, none, some [⟨some "abc"⟩]⟩ le_rfl (by norm_num)
      (by rintro q hq; rcases List.mem_singleton.mp hq with rfl; norm_num)).2.2.1 2
    (by decide) (by norm_num)

/-- C9: a non-empty currencies array whose first entry has no code (or an
empty code) yields `currency_code = ""` — which is not null — and, because
the empty string is falsy, no rate lookup happens and `estimated_gdp` stays
null rather than being forced to 0. -/
theorem emptyCode_spec (rnd : ℚ) (rates : List (String × ℚ)) (ts : String)
    (c : CountryDesc) (cur : Currency) (rest : List Currency)
    (hc : c.currencies = some (cur :: rest)) (hcode : cur.code.getD "" = "") :
    (deriveRow rnd rates ts c).currency_code = some "" ∧
    (deriveRow rnd rates ts c).currency_code ≠ none ∧
    (deriveRow rnd rates ts c).estimated_gdp = none := by
  have h1 : currencyCodeOf c = some (jsToUpper (cur.code.getD "")) := by
    unfold currencyCodeOf
    rw [hc]
  have hcc : currencyCodeOf c = some "" := by
    rw [h1, hcode]
    decide
  have her : exchangeRateOf rates c = none := by
    unfold exchangeRateOf
    rw [hcc]
    simp
  refine ⟨?_, ?_, ?_⟩
  · rw [deriveRow_currency_code, hcc]
  · rw [deriveRow_currency_code, hcc]; simp
  · rw [deriveRow_estimated_gdp, if_neg (by rw [hcc]; simp), her]
    rfl

/-- C9 witness: a concrete descriptor with a code-less currency entry stores
the empty-string code and a null GDP. -/
theorem emptyCode_spec_witness :
    (deriveRow 0 [("ABC", 2)] "ts"
        ⟨"Nocode", none, none, some 9, none, some [⟨none⟩]⟩).currency_code = some "" ∧
    (deriveRow 0 [("ABC", 2)] "ts"
        ⟨"Nocode", none, none, some 9, none, some [⟨none⟩]⟩).currency_code ≠ none ∧
    (deriveRow 0 [("ABC", 2)] "ts"
        ⟨"Nocode", none, none, some 9, none, some [⟨none⟩]⟩).estimated_gdp = none :=
  emptyCode_spec 0 [("ABC", 2)] "ts" ⟨"Nocode", none, none, some 9, none, some [⟨none⟩]⟩
    ⟨none⟩ [] rfl rfl

/-- C10: when the uppercased currency code maps to the rate 0, the refresh
stores `exchange_rate = 0` and `estimated_gdp = null`; the estimator returns
null for a zero rate (for every population and draw), so the division is
never evaluated with a zero divisor. -/
theorem zeroRate_spec (rnd : ℚ) (rates : List (String × ℚ)) (ts : String)
    (c : CountryDesc) (cur : Currency) (rest : List Currency) (code : String)
    (hc : c.currencies = some (cur :: rest)) (hcode : cur.code = some code)
    (hne : jsToUpper code ≠ "")
    (hrate : lookupRate rates (jsToUpper code) = some 0) :
    (deriveRow rnd rates ts c).exchange_rate = some 0 ∧
    (deriveRow rnd rates ts c).estimated_gdp = none ∧
    (∀ rnd2 p, computeEstimatedGdp rnd2 p (some 0) = none) := by
  have h1 : currencyCodeOf c = some (jsToUpper (cur.code.getD "")) := by
    unfold currencyCodeOf
    rw [hc]
  have hcc : currencyCodeOf c = some (jsToUpper code) := by
    rw [h1, hcode]
    rfl
  have her : exchangeRateOf rates c = some 0 := by
    unfold exchangeRateOf
    rw [hcc]
    show (if jsToUpper code = "" then none else lookupRate rates (jsToUpper code)) = some 0
    rw [if_neg hne, hrate]
  refine ⟨?_, ?_, ?_⟩
  · rw [deriveRow_exchange_rate, her]
  · rw [deriveRow_estimated_gdp, if_neg (by rw [hcc]; simp), her]
    simp [computeEstimatedGdp]
  · intro rnd2 p
    simp [computeEstimatedGdp]

/-- C10 witness: the concrete Zeroland row against `{ABC: 0}` stores rate 0
and null GDP, and the estimator maps a zero rate to null. -/
theorem zeroRate_spec_witness :
    zeroRateRow.exchange_rate = some 0 ∧
    zeroRateRow.estimated_gdp = none ∧
    (∀ rnd2 p, computeEstimatedGdp rnd2 p (some 0) = none) :=
  zeroRate_spec 0 [("ABC", 0)] "2026-01-01 00:00:00" zeroRateDesc ⟨some "abc"⟩ [] "abc"
    rfl rfl (by decide) (by decide)

/-- C6 counterexample: the sort value `gdp_desc_extra` is not exactly
`gdp_desc` or `gdp_asc`, yet `getCountries` orders by GDP descending (because
`split('_')` destructuring only looks at the first two segments) instead of
falling back to name ascending. -/
theorem sort_fallback_counterexample :
    getCountries [sampleRowA, sampleRowN, sampleRowB] none none (some "gdp_desc_extra") =
      [sampleRowB, sampleRowA, sampleRowN] ∧
    getCountries [sampleRowA, sampleRowN, sampleRowB] none none none =
      [sampleRowA, sampleRowB, sampleRowN] ∧
    getCountries [sampleRowA, sampleRowN, sampleRowB] none none (some "gdp_desc_extra") ≠
      getCountries [sampleRowA, sampleRowN, sampleRowB] none none none := by
  exact ⟨by decide, by decide, by decide⟩

/-- C6 amended: the fallback to name-ascending happens exactly when the sort
value's first underscore-segment is not `gdp` or its second segment is
neither `desc` nor `asc`; segments beyond the second are ignored, so values
like `gdp_desc_extra` are treated as `gdp_desc` (and `gdp_asc_…` values as
`gdp_asc`). All three cases are characterized: the fallback condition yields
the default name-ascending order, and first segments `gdp` with second
segment `desc` resp. `asc` yield exactly the `gdp_desc` resp. `gdp_asc`
output, whatever the remaining segments are. -/
theorem sort_fallback_spec (s : String) :
    (((splitOnUnderscore s).headD "" ≠ "gdp" ∨
        ((splitOnUnderscore s).get? 1 ≠ some "desc" ∧
          (splitOnUnderscore s).get? 1 ≠ some "asc")) →
      parseSortChoice (some s) = OrderChoice.nameAsc ∧
      ∀ table, getCountries table none none (some s) = sortLe nameAscLe table) ∧
    ((splitOnUnderscore s).headD "" = "gdp" →
      (splitOnUnderscore s).get? 1 = some "desc" →
      parseSortChoice (some s) = OrderChoice.gdpDesc ∧
      ∀ table, getCountries table none none (some s) =
        getCountries table none none (some "gdp_desc")) ∧
    ((splitOnUnderscore s).headD "" = "gdp" →
      (splitOnUnderscore s).get? 1 = some "asc" →
      parseSortChoice (some s) = OrderChoice.gdpAsc ∧
      ∀ table, getCountries table none none (some s) =
        getCountries table none none (some "gdp_asc")) := by
  refine ⟨?_, ?_, ?_⟩
  · intro h
    have hp : parseSortChoice (some s) = OrderChoice.nameAsc := by
      simp only [parseSortChoice]
      by_cases hs : s = ""
      · rw [if_pos hs]
      · rw [if_neg hs]
        cases hg : (splitOnUnderscore s).get? 1 with
        | none => simp
        | some dir =>
          rcases h with h | ⟨h1, h2⟩
          · rw [List.headD_eq_head?_getD] at h
            simp [h]
          · have hd1 : dir ≠ "desc" := fun hd => h1 (by rw [hg, hd])
            have hd2 : dir ≠ "asc" := fun hd => h2 (by rw [hg, hd])
            simp [hd1, hd2]
    refine ⟨hp, ?_⟩
    intro table
    simp only [getCountries, hp]
  · intro hfield hdir
    have hs : ¬s = "" := by
      intro hs0
      subst hs0
      exact absurd hfield (by decide)
    have hp : parseSortChoice (some s) = OrderChoice.gdpDesc := by
      simp only [parseSortChoice]
      rw [if_neg hs, hdir]
      rw [List.headD_eq_head?_getD] at hfield
      simp [hfield]
    have hp2 : parseSortChoice (some "gdp_desc") = OrderChoice.gdpDesc := by decide
    refine ⟨hp, ?_⟩
    intro table
    simp only [getCountries, hp, hp2]
  · intro hfield hdir
    have hs : ¬s = "" := by
      intro hs0
      subst hs0
      exact absurd hfield (by decide)
    have hp : parseSortChoice (some s) = OrderChoice.gdpAsc := by
      simp only [parseSortChoice]
      rw [if_neg hs, hdir]
      rw [List.headD_eq_head?_getD] at hfield
      simp [hfield]
    have hp2 : parseSortChoice (some "gdp_asc") = OrderChoice.gdpAsc := by decide
    refine ⟨hp, ?_⟩
    intro table
    simp only [getCountries, hp, hp2]

/-- C6 amended witness: the sort value `gdp` (missing direction segment)
falls back to name-ascending, while `gdp_asc_extra` keeps the `gdp_asc`
ordering despite its extra segment. -/
theorem sort_fallback_spec_witness :
    parseSortChoice (some "gdp") = OrderChoice.nameAsc ∧
    parseSortChoice (some "gdp_asc_extra") = OrderChoice.gdpAsc :=
  ⟨((sort_fallback_spec "gdp").1 (Or.inr ⟨by decide, by decide⟩)).1,
   ((sort_fallback_spec "gdp_asc_extra").2.2 (by decide) (by decide)).1⟩

/-- C7: for every table state (and any region/currency filters),
`GET /countries?sort=gdp_desc` returns the surviving rows (a permutation of
the table when unfiltered) in an order where estimated_gdp is non-increasing
and null GDPs come after all non-null ones; the transaction's top-5 read-back
obeys the same nulls-last descending order. -/
theorem gdp_desc_sorted (table : List CountryRow) (region currency : Option String) :
    List.Pairwise gdpDescOrder (getCountries table region currency (some "gdp_desc")) ∧
    (getCountries table none none (some "gdp_desc")).Perm table ∧
    List.Pairwise gdpDescOrder (topCountriesQuery table) := by
  have hsorted : ∀ t : List CountryRow, List.Pairwise gdpDescOrder (sortLe gdpDescLe t) :=
    fun t => (sortLe_pairwise gdpDescLe gdpDescLe_total gdpDescLe_trans t).imp
      (fun h => gdpDescLe_implies_order _ _ h)
  have hchoice : parseSortChoice (some "gdp_desc") = OrderChoice.gdpDesc := by decide
  refine ⟨?_, ?_, ?_⟩
  · simp only [getCountries, hchoice]
    exact hsorted _
  · simp only [getCountries, hchoice]
    exact sortLe_perm gdpDescLe table
  · unfold topCountriesQuery
    exact (hsorted table).take

/-- C8: with the store's case-insensitive unique key on names, a request name
equal to a stored row's name up to case makes `GET /countries/:name` return
exactly that row and `DELETE /countries/:name` remove exactly that row; a
request name matching no row leaves the table unchanged and yields the
not-found outcome for both endpoints. -/
theorem nameLookup_spec (table : List CountryRow) (row : CountryRow) (nm : String)
    (hu : table.Pairwise (fun a b => jsToLower a.name ≠ jsToLower b.name)) :
    (row ∈ table → nameKeyEq row.name nm = true →
      getCountryByName table nm = some row ∧
      (deleteCountry table nm).1 = DeleteOutcome.deleted ∧
      (deleteCountry table nm).2.length + 1 = table.length ∧
      row ∉ (deleteCountry table nm).2 ∧
      ∀ x ∈ table, x ≠ row → x ∈ (deleteCountry table nm).2) ∧
    ((∀ r ∈ table, nameKeyEq r.name nm = false) →
      getCountryByName table nm = none ∧
      deleteCountry table nm = (DeleteOutcome.notFound, table)) := by
  constructor
  · intro hrow hmatch
    have hfil := filter_nameKeyEq_eq_single table row nm hu hrow hmatch
    have hlen := @List.length_eq_length_filter_add CountryRow table
      (fun r => nameKeyEq r.name nm)
    rw [hfil] at hlen
    have hlen' : (table.filter fun r => !nameKeyEq r.name nm).length + 1 = table.length := by
      simp only [List.length_cons, List.length_nil] at hlen
      omega
    have hdel : deleteCountry table nm =
        (DeleteOutcome.deleted, table.filter fun r => !nameKeyEq r.name nm) := by
      simp only [deleteCountry]
      rw [if_neg (by omega)]
    refine ⟨?_, ?_, ?_, ?_, ?_⟩
    · unfold getCountryByName
      rw [hfil]
      rfl
    · rw [hdel]
    · rw [hdel]
      exact hlen'
    · rw [hdel]
      intro hmem
      have := (List.mem_filter.mp hmem).2
      rw [hmatch] at this
      exact Bool.noConfusion this
    · intro x hx hxne
      rw [hdel]
      refine List.mem_filter.mpr ⟨hx, ?_⟩
      have hxfalse : nameKeyEq x.name nm = false := by
        cases hb : nameKeyEq x.name nm
        · rfl
        · exfalso
          have hxin : x ∈ table.filter (fun r => nameKeyEq r.name nm) :=
            List.mem_filter.mpr ⟨hx, hb⟩
          rw [hfil] at hxin
          exact hxne (List.mem_singleton.mp hxin)
      rw [hxfalse]
      rfl
  · intro hnone
    constructor
    · unfold getCountryByName
      rw [List.filter_eq_nil_iff.mpr
        (fun r hr => by rw [hnone r hr]; exact Bool.false_ne_true)]
      rfl
    · simp only [deleteCountry]
      have hall : (table.filter fun r => !nameKeyEq r.name nm) = table :=
        List.filter_eq_self.mpr (fun r hr => by rw [hnone r hr]; rfl)
      rw [hall, if_pos rfl]

/-- C8 witness: in a table holding rows named A and B, the request name `a`
resolves to the row named A for both read and delete, and the request name
`Atlantis` yields not-found with the table unchanged. -/
theorem nameLookup_spec_witness :
    (getCountryByName [sampleRowA, sampleRowB] "a" = some sampleRowA ∧
      (deleteCountry [sampleRowA, sampleRowB] "a").1 = DeleteOutcome.deleted ∧
      (deleteCountry [sampleRowA, sampleRowB] "a").2.length + 1 = 2) ∧
    (getCountryByName [sampleRowA, sampleRowB] "Atlantis" = none ∧
      deleteCountry [sampleRowA, sampleRowB] "Atlantis" =
        (DeleteOutcome.notFound, [sampleRowA, sampleRowB])) := by
  constructor
  · have h := (nameLookup_spec [sampleRowA, sampleRowB] sampleRowA "a" (by decide)).1
      (by decide) (by decide)
    exact ⟨h.1, h.2.1, h.2.2.1⟩
  · exact (nameLookup_spec [sampleRowA, sampleRowB] sampleRowA "Atlantis" (by decide)).2
      (by decide)

theorem refresh_cases (fetch : FetchOutcome) (fails : DbFailures) (rands : Nat → ℚ)
    (isoNow : String) (s : Store) :
    (∃ st msg, refreshCountries fetch fails rands isoNow s =
      (RefreshResponse.errorResp st msg, s)) ∨
    (∃ rates cs, fetch = FetchOutcome.ok (some rates) (some cs) ∧
      refreshCountries fetch fails rands isoNow s =
        (RefreshResponse.success cs.length isoNow,
          ⟨upsertAll rands rates (dbTimestampOf isoNow) cs s.countries 0,
            ⟨cs.length, some (dbTimestampOf isoNow)⟩⟩)) := by
  cases fetch with
  | netError => exact Or.inl ⟨503, "External data source unavailable", rfl⟩
  | ok eb cb =>
    cases eb with
    | none => exact Or.inl ⟨503, "External data source unavailable", rfl⟩
    | some rates =>
      cases cb with
      | none => exact Or.inl ⟨503, "External data source unavailable", rfl⟩
      | some cs =>
        cases hrun : runUpserts rands rates (dbTimestampOf isoNow) fails cs s.countries 0 with
        | none =>
          exact Or.inl ⟨500, "Internal server error", by simp [refreshCountries, hrun]⟩
        | some table' =>
          by_cases hst : fails.statusFails = true
          · exact Or.inl ⟨500, "Internal server error",
              by simp [refreshCountries, hrun, hst]⟩
          · by_cases hrb : fails.readbackFails = true
            · exact Or.inl ⟨500, "Internal server error",
                by simp [refreshCountries, hrun, hst, hrb]⟩
            · by_cases him : fails.imageFails = true
              · exact Or.inl ⟨500, "Internal server error",
                  by simp [refreshCountries, hrun, hst, hrb, him]⟩
              · refine Or.inr ⟨rates, cs, rfl, ?_⟩
                have htab := runUpserts_eq_upsertAll rands rates (dbTimestampOf isoNow)
                  fails cs s.countries 0 table' hrun
                simp [refreshCountries, hrun, hst, hrb, him, htab]

/-- C1: refresh is atomic — whenever the response is an error (any failure of
an upsert, the status update, the top-5 read-back or the pre-commit image
generation, as well as fetch failures), the store is exactly as before the
attempt; whenever the response is success, the store holds all the upserts
and the new status row together. -/
theorem refresh_atomic (fetch : FetchOutcome) (fails : DbFailures) (rands : Nat → ℚ)
    (isoNow : String) (s : Store) :
    (∀ st msg,
      (refreshCountries fetch fails rands isoNow s).1 = RefreshResponse.errorResp st msg →
      (refreshCountries fetch fails rands isoNow s).2 = s) ∧
    (∀ n t,
      (refreshCountries fetch fails rands isoNow s).1 = RefreshResponse.success n t →
      ∃ rates cs, fetch = FetchOutcome.ok (some rates) (some cs) ∧
        n = cs.length ∧ t = isoNow ∧
        (refreshCountries fetch fails rands isoNow s).2 =
          ⟨upsertAll rands rates (dbTimestampOf isoNow) cs s.countries 0,
            ⟨cs.length, some (dbTimestampOf isoNow)⟩⟩) := by
  rcases refresh_cases fetch fails rands isoNow s with ⟨st, msg, heq⟩ |
    ⟨rates, cs, hf, heq⟩
  · constructor
    · intro st' msg' _
      rw [heq]
    · intro n t h
      rw [heq] at h
      exact absurd h (by simp)
  · constructor
    · intro st' msg' h
      rw [heq] at h
      exact absurd h (by simp)
    · intro n t h
      rw [heq] at h
      have h' : RefreshResponse.success cs.length isoNow = RefreshResponse.success n t := h
      injection h' with h1 h2
      subst h1
      subst h2
      exact ⟨rates, cs, hf, rfl, rfl, by rw [heq]⟩

/-- C1 witness: with one prior row in the store, a refresh whose first upsert
query raises answers 500 and leaves the store unchanged. -/
theorem refresh_atomic_witness :
    (refreshCountries (FetchOutcome.ok (some []) (some [franceDesc])) allUpsertsFail
      (fun _ => 0) "2026-01-01T00:00:00.000Z" priorStore).2 = priorStore :=
  (refresh_atomic (FetchOutcome.ok (some []) (some [franceDesc])) allUpsertsFail
    (fun _ => 0) "2026-01-01T00:00:00.000Z" priorStore).1 500 "Internal server error"
    (by decide)

/-- C4: whenever the fetch phase fails — rejected promise, body without the
`rates` mapping, or a non-array country payload — the refresh responds 503
with error `External data source unavailable` and the store is untouched. -/
theorem fetch_failure_spec (fetch : FetchOutcome) (fails : DbFailures) (rands : Nat → ℚ)
    (isoNow : String) (s : Store) (h : fetchFailed fetch = true) :
    refreshCountries fetch fails rands isoNow s =
      (RefreshResponse.errorResp 503 "External data source unavailable", s) := by
  cases fetch with
  | netError => rfl
  | ok eb cb =>
    cases eb with
    | none => rfl
    | some rates =>
      cases cb with
      | none => rfl
      | some cs => simp [fetchFailed] at h

/-- C4 witness: a malformed exchange-rate body (no `rates` mapping) makes the
refresh answer 503 and leave the prior store intact. -/
theorem fetch_failure_spec_witness :
    refreshCountries (FetchOutcome.ok none (some [franceDesc])) noFailures (fun _ => 0)
      "2026-01-01T00:00:00.000Z" priorStore =
      (RefreshResponse.errorResp 503 "External data source unavailable", priorStore) :=
  fetch_failure_spec (FetchOutcome.ok none (some [franceDesc])) noFailures (fun _ => 0)
    "2026-01-01T00:00:00.000Z" priorStore (by decide)

/-- C5 counterexample: a payload of two descriptors France and FRANCE whose
names collide on the case-insensitive unique key leaves one row in the table
but writes `total_countries = 2` to the status singleton, so the claimed
equality fails. -/
theorem status_count_counterexample :
    (refreshCountries (FetchOutcome.ok (some []) (some [franceDesc, franceUpperDesc]))
      noFailures (fun _ => 0) "2026-01-01T00:00:00.000Z" emptyStore).2.status.total_countries
      = 2 ∧
    ((refreshCountries (FetchOutcome.ok (some []) (some [franceDesc, franceUpperDesc]))
      noFailures (fun _ => 0) "2026-01-01T00:00:00.000Z" emptyStore).2.countries).length
      = 1 := by
  exact ⟨by decide, by decide⟩

/-- C5 amended: a successful refresh writes the gateway payload's length to
`total_countries` (the code counts processed descriptors, not rows); this
equals the row count when the table was empty beforehand and the payload's
names are pairwise distinct on the case-insensitive key, but not in general. -/
theorem refresh_total_spec (rates : List (String × ℚ)) (cs : List CountryDesc)
    (fails : DbFailures) (rands : Nat → ℚ) (isoNow : String) (s : Store)
    (hup : ∀ i, fails.upsertFails i = false) (hst : fails.statusFails = false)
    (hrb : fails.readbackFails = false) (him : fails.imageFails = false) :
    (refreshCountries (FetchOutcome.ok (some rates) (some cs)) fails rands isoNow s).1 =
      RefreshResponse.success cs.length isoNow ∧
    (refreshCountries (FetchOutcome.ok (some rates) (some cs))
      fails rands isoNow s).2.status.total_countries = cs.length ∧
    (cs.Pairwise (fun a b => jsToLower a.name ≠ jsToLower b.name) → s.countries = [] →
      ((refreshCountries (FetchOutcome.ok (some rates) (some cs))
        fails rands isoNow s).2.countries).length = cs.length) := by
  have hrun := runUpserts_of_no_failures rands rates (dbTimestampOf isoNow) fails hup
    cs s.countries 0
  refine ⟨?_, ?_, ?_⟩
  · simp [refreshCountries, hrun, hst, hrb, him]
  · simp [refreshCountries, hrun, hst, hrb, him]
  · intro hpw hempty
    simp only [refreshCountries, hrun, hst, hrb, him, Bool.false_eq_true, if_false]
    rw [hempty]
    have hlen := upsertAll_length_of_fresh rands rates (dbTimestampOf isoNow) cs [] 0
      (by intro c hc x hx; cases hx) hpw
    simpa using hlen

/-- C5 amended witness: refreshing an empty store with the single-descriptor
payload France succeeds with total 1 and leaves one row. -/
theorem refresh_total_spec_witness :
    (refreshCountries (FetchOutcome.ok (some []) (some [franceDesc])) noFailures
      (fun _ => 0) "2026-01-01T00:00:00.000Z" emptyStore).1 =
      RefreshResponse.success 1 "2026-01-01T00:00:00.000Z" ∧
    (refreshCountries (FetchOutcome.ok (some []) (some [franceDesc])) noFailures
      (fun _ => 0) "2026-01-01T00:00:00.000Z" emptyStore).2.status.total_countries = 1 ∧
    ((refreshCountries (FetchOutcome.ok (some []) (some [franceDesc])) noFailures
      (fun _ => 0) "2026-01-01T00:00:00.000Z" emptyStore).2.countries).length = 1 := by
  have h := refresh_total_spec [] [franceDesc] noFailures (fun _ => 0)
    "2026-01-01T00:00:00.000Z" emptyStore (fun _ => rfl) rfl rfl rfl
  exact ⟨h.1, h.2.1, h.2.2 (by decide) rfl⟩

end CountryService
